import Mathlib

/-!
Verification of the workflow-orchestration engine: a shallow embedding of the
state-merge engine (`src/utils/state_utils.py`), the result serializer and
workflow instance operations (`src/agents/workflows/index.py`), the retry
wrapper (`src/agents/resilient_postgres_saver.py`), the orchestrator
(`src/agents/orchestrator.py`), the HTTP controller
(`src/controllers/workflow_controller.py`) and the JSON parsing helper
(`src/utils/json_parser.py`), together with proofs of the specified
properties.
-/

set_option autoImplicit false

/-- A model of the Python runtime values the engine manipulates: JSON-like
primitives, lists, string-keyed dicts (association lists in insertion order,
keys unique in well-formed dicts), message objects (objects exposing
`content`/`type` attributes and an optional `role` attribute, as
`langchain_core.messages.BaseMessage` does), and opaque objects whose only
relevant capability is their string representation. -/
inductive PyVal where
  | str (s : String)
  | int (n : Int)
  | bool (b : Bool)
  | none
  | list (xs : List PyVal)
  | dict (entries : List (String × PyVal))
  | msg (content : String) (type : String) (role : Option String)
  | obj (r : String)
deriving Repr

/-- A Python dict: keys in insertion order. -/
abbrev PyDict := List (String × PyVal)

/-- `d.get(k)` / `d[k]`: the value at the first occurrence of key `k`. -/
def dictGet (d : PyDict) (k : String) : Option PyVal :=
  match d with
  | [] => Option.none
  | (k', v) :: rest => if k' = k then some v else dictGet rest k

/-- `k in d`: membership test on keys. -/
def dictContains (d : PyDict) (k : String) : Bool :=
  match d with
  | [] => false
  | (k', _) :: rest => k' = k || dictContains rest k

/-- `d[k] = v`: replace the value at an existing key in place, otherwise
append the new pair at the end (Python dicts preserve insertion order). -/
def dictSet (d : PyDict) (k : String) (v : PyVal) : PyDict :=
  match d with
  | [] => [(k, v)]
  | (k', v') :: rest => if k' = k then (k, v) :: rest else (k', v') :: dictSet rest k v

/-- `d.update(e)`: overlay every entry of `e` onto `d`, left to right. -/
def dictUpdate (d e : PyDict) : PyDict :=
  e.foldl (fun acc kv => dictSet acc kv.1 kv.2) d

/-- The keys of a dict, in order. -/
def dictKeys (d : PyDict) : List String :=
  d.map Prod.fst

/-- `isinstance(v, list)`, returning the payload. -/
def asList : PyVal → Option (List PyVal)
  | .list xs => some xs
  | _ => Option.none

/-- `isinstance(v, dict)`, returning the payload. -/
def asDict : PyVal → Option PyDict
  | .dict d => some d
  | _ => Option.none

/-- The `existing_messages` computation in `merge_partial_state_update`
(`src/utils/state_utils.py` lines 32-36): `merged_state.get("messages", [])`,
coerced to `[]` when absent or not a list. -/
def existingMessages (merged_state : PyDict) : List PyVal :=
  match dictGet merged_state "messages" with
  | some (.list l) => l
  | _ => []

/-- The `workflow_data` branch of `merge_partial_state_update`
(`src/utils/state_utils.py` lines 41-49): shallow-merge dicts, replace the
whole value otherwise; a missing current value defaults to the empty dict,
which is a dict, so it is merged. -/
def mergeWorkflowData (merged_state : PyDict) (value : PyDict) : PyDict :=
  match dictGet merged_state "workflow_data" with
  | some (.dict existing) => dictSet merged_state "workflow_data" (.dict (dictUpdate existing value))
  | some _ => dictSet merged_state "workflow_data" (.dict value)
  | Option.none => dictSet merged_state "workflow_data" (.dict (dictUpdate [] value))

/-- One iteration of the `for key, value in partial_update.items()` loop in
`merge_partial_state_update` (`src/utils/state_utils.py` lines 29-58). The
if/elif chain is reproduced branch by branch; note the immutability check
consults `current_state`, not the accumulator. -/
def mergeStep (current_state merged_state : PyDict) (key : String) (value : PyVal) : PyDict :=
  if key = "messages" ∧ (asList value).isSome then
    dictSet merged_state "messages" (.list (existingMessages merged_state ++ (asList value).getD []))
  else if key = "workflow_data" ∧ (asDict value).isSome then
    mergeWorkflowData merged_state ((asDict value).getD [])
  else if (key = "thread_id" ∨ key = "session_id") ∧ dictContains current_state key then
    merged_state
  else
    dictSet merged_state key value

/-- `merge_partial_state_update` (`src/utils/state_utils.py` lines 5-60).
The guard `if not current_state: current_state = {}` is a no-op here because
the falsy dict is already the empty association list; `merged_state` starts
as a copy of `current_state` and each entry of `partial_update` is folded in. -/
def merge_partial_state_update (current_state partial_update : PyDict) : PyDict :=
  partial_update.foldl (fun merged kv => mergeStep current_state merged kv.1 kv.2) current_state

mutual

/-- A model of Python `str(v)` for the values above (an external builtin:
the exact rendering of nested containers is immaterial to the engine, only
totality and the fact that the result is a string matter; `str` of a string
is itself, of a list is the bracketed comma-separated rendering). -/
def pyStr : PyVal → String
  | .str s => s
  | .int n => toString n
  | .bool b => if b then "True" else "False"
  | .none => "None"
  | .msg c t _ => "content=" ++ c ++ " type=" ++ t
  | .obj r => r
  | .list xs => "[" ++ String.intercalate ", " (pyStrList xs) ++ "]"
  | .dict kvs => "\x7b" ++ String.intercalate ", " (pyStrEntries kvs) ++ "\x7d"

/-- String renderings of the elements of a list, in order. -/
def pyStrList : List PyVal → List String
  | [] => []
  | v :: vs => pyStr v :: pyStrList vs

/-- String renderings of the entries of a dict, in order. -/
def pyStrEntries : List (String × PyVal) → List String
  | [] => []
  | (k, v) :: rest => (k ++ ": " ++ pyStr v) :: pyStrEntries rest
end

/-- One element of a `messages` list in `_serialize_result`
(`src/agents/workflows/index.py` lines 206-214): objects exposing `content`
and `type` attributes become `{content, type, role}` dicts with
`getattr(msg, "role", "unknown")`; everything else becomes `str(msg)`. -/
def serializeMessagesItem (m : PyVal) : PyVal :=
  match m with
  | .msg c t r => .dict [("content", .str c), ("type", .str t), ("role", .str (r.getD "unknown"))]
  | x => .str (pyStr x)

/-- The `key == "messages"` branch of `_serialize_result`
(`src/agents/workflows/index.py` lines 202-216): a list value is mapped
element-wise, a non-list value becomes `str(value)`. -/
def serializeMessagesVal (v : PyVal) : PyVal :=
  match v with
  | .list items => .list (items.map serializeMessagesItem)
  | x => .str (pyStr x)

mutual

/-- `_serialize_result` (`src/agents/workflows/index.py` lines 195-226):
a non-dict argument becomes `{"raw_result": str(result)}`; a dict is rebuilt
entry by entry. -/
def serialize_result : PyVal → PyVal
  | .dict kvs => .dict (serializeEntries kvs)
  | v => .dict [("raw_result", .str (pyStr v))]

/-- The `for key, value in result.items()` loop of `_serialize_result`. -/
def serializeEntries : List (String × PyVal) → List (String × PyVal)
  | [] => []
  | (k, v) :: rest => (k, serializeValue k v) :: serializeEntries rest

/-- The per-entry dispatch of `_serialize_result`: the `messages` key is
special-cased; primitives pass through; a dict value goes through
`self._serialize_result(value)` (inlined here as its dict arm, to which it
is definitionally equal); a list value keeps dict items (recursed) and
stringifies the rest; any other object becomes `str(value)`. -/
def serializeValue (key : String) (v : PyVal) : PyVal :=
  if key = "messages" then serializeMessagesVal v
  else
    match v with
    | .str s => .str s
    | .int n => .int n
    | .bool b => .bool b
    | .none => .none
    | .dict kvs => .dict (serializeEntries kvs)
    | .list items => .list (serializeList items)
    | x => .str (pyStr x)

/-- The list-comprehension arm of `_serialize_result`
(`src/agents/workflows/index.py` line 222). -/
def serializeList : List PyVal → List PyVal
  | [] => []
  | x :: xs => serializeListItem x :: serializeList xs

/-- One item of a serialized list: dicts are recursed, everything else is
stringified. -/
def serializeListItem : PyVal → PyVal
  | .dict kvs => .dict (serializeEntries kvs)
  | x => .str (pyStr x)

end

mutual

/-- JSON safety: the value contains only primitives, lists and dicts — no
message objects and no opaque objects (the "plain, JSON-safe structures" of
the result-serialization contract). -/
def jsonSafe : PyVal → Bool
  | .str _ => true
  | .int _ => true
  | .bool _ => true
  | .none => true
  | .msg _ _ _ => false
  | .obj _ => false
  | .list xs => jsonSafeList xs
  | .dict kvs => jsonSafeEntries kvs

/-- Every element of the list is JSON-safe. -/
def jsonSafeList : List PyVal → Bool
  | [] => true
  | x :: xs => jsonSafe x && jsonSafeList xs

/-- Every value of the dict is JSON-safe. -/
def jsonSafeEntries : List (String × PyVal) → Bool
  | [] => true
  | (_, v) :: rest => jsonSafe v && jsonSafeEntries rest

end

/-- Outcome of a wrapped store operation: `result = none` models the Python
implicit `None` return when the `while` loop body never runs
(`max_retries = 0`); otherwise the operation either returned a value or
raised. `reconnects` counts how many times `time.sleep(retry_delay)` followed
by `self._reconnect()` ran, i.e. the number of backoff/reconnect gaps between
consecutive attempts. -/
structure RetryOutcome (α : Type) where
  result : Option (Except String α)
  reconnects : Nat
deriving Repr

/-- The `while retries < self.max_retries` loop of `_execute_with_retries`
(`src/agents/resilient_postgres_saver.py` lines 28-41), as structural
recursion on `remaining = max_retries - retries`; `op k` is the outcome of
the k-th call of the underlying `query_func` (an `.error` models a raised
`OperationalError`/`ConnectionError`). `remaining = 1` is exactly the Python
condition `retries + 1 >= max_retries`, where the loop re-raises instead of
sleeping and reconnecting. -/
def retryAux {α : Type} (op : Nat → Except String α) (retries : Nat) : Nat → RetryOutcome α
  | 0 => ⟨Option.none, 0⟩
  | remaining + 1 =>
    match op retries with
    | .ok a => ⟨some (.ok a), 0⟩
    | .error e =>
      match remaining with
      | 0 => ⟨some (.error e), 0⟩
      | r + 1 =>
        let p := retryAux op (retries + 1) (r + 1)
        ⟨p.result, p.reconnects + 1⟩

/-- `_execute_with_retries(self, query_func, ...)`: run the loop from
`retries = 0`. -/
def executeWithRetries {α : Type} (max_retries : Nat) (op : Nat → Except String α) : RetryOutcome α :=
  retryAux op 0 max_retries

/-- `ResilientPostgresSaver` (`src/agents/resilient_postgres_saver.py`):
`max_retries`/`retry_delay` with their constructor defaults, and one
attempt-indexed outcome function per wrapped `PostgresSaver` operation
(`super().setup/list/get_tuple/put`), each modelled uniformly as producing a
`PyVal`. -/
structure ResilientPostgresSaver where
  max_retries : Nat := 3
  retry_delay : Nat := 2
  super_setup : Nat → Except String PyVal
  super_list : Nat → Except String PyVal
  super_get_tuple : Nat → Except String PyVal
  super_put : Nat → Except String PyVal

/-- `setup` (`src/agents/resilient_postgres_saver.py` lines 68-69). -/
def ResilientPostgresSaver.setup (s : ResilientPostgresSaver) : RetryOutcome PyVal :=
  executeWithRetries s.max_retries s.super_setup

/-- `list` (`src/agents/resilient_postgres_saver.py` lines 71-72). -/
def ResilientPostgresSaver.listOp (s : ResilientPostgresSaver) : RetryOutcome PyVal :=
  executeWithRetries s.max_retries s.super_list

/-- `get_tuple` (`src/agents/resilient_postgres_saver.py` lines 74-75). -/
def ResilientPostgresSaver.get_tuple (s : ResilientPostgresSaver) : RetryOutcome PyVal :=
  executeWithRetries s.max_retries s.super_get_tuple

/-- `put` (`src/agents/resilient_postgres_saver.py` lines 77-78). -/
def ResilientPostgresSaver.put (s : ResilientPostgresSaver) : RetryOutcome PyVal :=
  executeWithRetries s.max_retries s.super_put

/-- `WorkflowMessage` (`src/agents/workflows/index.py` lines 52-57). -/
structure WorkflowMessage where
  content : String
  type : String
  role : String

/-- A langgraph `StateSnapshot` as used by the engine: the persisted values
and the pending `next` nodes. -/
structure StateSnapshot where
  values : PyDict
  next : List String

/-- The compiled langgraph instance (`self.workflow_instance`), modelled by
its observable operations over an abstract checkpoint-store state `σ`:
`get_state` may return the snapshot, report absence, or raise (`.error`);
`update_state` persists new values; `invoke` continues/starts execution and
may raise. -/
structure WfInstance (σ : Type) where
  get_state : String → σ → Except String (Option StateSnapshot)
  update_state : String → PyDict → σ → σ
  invoke : Option PyDict → String → σ → Except String PyDict × σ

/-- A `BaseWorkflowInterface` object: `workflow_instance` is `None` until
`init()` compiled the graph. -/
structure BaseWorkflowInterface (σ : Type) where
  workflow_instance : Option (WfInstance σ)

/-- `values["messages"].append(user_message)` in `resume_workflow`
(`src/agents/workflows/index.py` lines 126-132): the new `BaseMessage` built
from the caller message is appended to the existing list (after the
preceding lines the key is always present; a non-list value there would make
Python raise, which cannot arise from states this engine writes). -/
def appendUserMessage (values : PyDict) (m : WorkflowMessage) : PyDict :=
  match dictGet values "messages" with
  | some (.list l) => dictSet values "messages" (.list (l ++ [.msg m.content m.type (some m.role)]))
  | _ => values

/-- `resume_workflow` (`src/agents/workflows/index.py` lines 96-140): raise
if uninitialized; load the snapshot (a raising read propagates); raise
`ValueError` when no state exists; return the serialized current values
untouched when `next` is empty; otherwise set `is_processing`, ensure
`messages` exists, append the caller message if one was given, persist via
`update_state` and continue with `invoke(None, config)`. -/
def resume_workflow {σ : Type} (self : BaseWorkflowInterface σ) (thread_id : String)
    (message : Option WorkflowMessage) (s : σ) : Except String PyVal × σ :=
  match self.workflow_instance with
  | Option.none => (.error "Workflow not initialized", s)
  | some wi =>
    match wi.get_state thread_id s with
    | .error e => (.error e, s)
    | .ok Option.none => (.error ("No workflow state found for thread_id: " ++ thread_id), s)
    | .ok (some curr) =>
      if curr.next = [] then
        (.ok (serialize_result (.dict curr.values)), s)
      else
        let values := curr.values
        let values := dictSet values "is_processing" (.bool true)
        let values := if dictContains values "messages" then values else dictSet values "messages" (.list [])
        let values := match message with
          | some m => appendUserMessage values m
          | Option.none => values
        let s1 := wi.update_state thread_id values s
        match wi.invoke Option.none thread_id s1 with
        | (.error e, s2) => (.error e, s2)
        | (.ok result, s2) => (.ok (serialize_result (.dict result)), s2)

/-- `chat_update` (`src/agents/workflows/index.py` lines 191-193): a direct
delegation to `resume_workflow`. -/
def chat_update {σ : Type} (self : BaseWorkflowInterface σ) (thread_id : String)
    (message : Option WorkflowMessage) (s : σ) : Except String PyVal × σ :=
  resume_workflow self thread_id message s

/-- `start_workflow` (`src/agents/workflows/index.py` lines 142-174): build
the seeded initial state (empty `messages` list plus the supplied message
appended — the `if message` guard always holds for a dataclass instance),
invoke the graph from the entry point and serialize the result. -/
def start_workflow {σ : Type} (self : BaseWorkflowInterface σ) (message : WorkflowMessage)
    (thread_id : String) (s : σ) : Except String PyVal × σ :=
  match self.workflow_instance with
  | Option.none => (.error "Workflow not initialized", s)
  | some wi =>
    let initial_state : PyDict :=
      [("messages", .list [.msg message.content message.type (some message.role)]),
       ("user_input", .dict [("content", .str message.content), ("type", .str message.type), ("role", .str message.role)]),
       ("current_step", .str "start"),
       ("thread_id", .str thread_id),
       ("session_id", .str thread_id),
       ("workflow_data", .dict []),
       ("is_processing", .bool true)]
    match wi.invoke (some initial_state) thread_id s with
    | (.error e, s2) => (.error e, s2)
    | (.ok result, s2) => (.ok (serialize_result (.dict result)), s2)

/-- `get_state` (`src/agents/workflows/index.py` lines 176-189): `None` when
uninitialized; inside `try`, a truthy snapshot with truthy `values` is
serialized and returned, anything else gives `None`; any raised exception is
swallowed into `None`. -/
def BaseWorkflowInterface.get_state {σ : Type} (self : BaseWorkflowInterface σ)
    (thread_id : String) (s : σ) : Option PyVal :=
  match self.workflow_instance with
  | Option.none => Option.none
  | some wi =>
    match wi.get_state thread_id s with
    | .error _ => Option.none
    | .ok Option.none => Option.none
    | .ok (some st) =>
      match st.values with
      | [] => Option.none
      | _ :: _ => some (serialize_result (.dict st.values))

/-- The result envelope built by `WorkflowOrchestrator`
(`src/agents/orchestrator.py`): `state` and `error` model the keys that are
present only in some envelopes. -/
structure Envelope where
  status : String
  thread_id : String
  workflow_name : String
  state : Option PyVal
  error : Option String
  message : String

/-- Registry lookup `self.workflows[workflow_name]` guarded by
`workflow_name not in self.workflows`. -/
def lookupWorkflow {σ : Type} (workflows : List (String × BaseWorkflowInterface σ))
    (name : String) : Option (BaseWorkflowInterface σ) :=
  match workflows with
  | [] => Option.none
  | (n, w) :: rest => if n = name then some w else lookupWorkflow rest name

/-- `WorkflowOrchestrator.start` (`src/agents/orchestrator.py` lines 21-57):
an unregistered name raises `ValueError` (before the `try`, so it
propagates); otherwise `start_workflow` runs inside `try` and any raised
exception is converted into the `status = "error"` envelope. The generated
`uuid4` thread id is a parameter. The Python message quotes the workflow
name; the quotes are elided here. -/
def WorkflowOrchestrator.start {σ : Type} (workflows : List (String × BaseWorkflowInterface σ))
    (workflow_name : String) (message : WorkflowMessage) (thread_id : String) (s : σ) :
    Except String Envelope × σ :=
  match lookupWorkflow workflows workflow_name with
  | Option.none => (.error ("Workflow " ++ workflow_name ++ " not found"), s)
  | some workflow =>
    match start_workflow workflow message thread_id s with
    | (.ok result, s2) =>
      (.ok ⟨"started", thread_id, workflow_name, some result, Option.none, "Workflow started successfully"⟩, s2)
    | (.error e, s2) =>
      (.ok ⟨"error", thread_id, workflow_name, Option.none, some e, "Failed to start workflow"⟩, s2)

/-- `WorkflowOrchestrator.chat` (`src/agents/orchestrator.py` lines 59-96):
same envelope pattern around `chat_update`. -/
def WorkflowOrchestrator.chat {σ : Type} (workflows : List (String × BaseWorkflowInterface σ))
    (workflow_name thread_id : String) (message : Option WorkflowMessage) (s : σ) :
    Except String Envelope × σ :=
  match lookupWorkflow workflows workflow_name with
  | Option.none => (.error ("Workflow " ++ workflow_name ++ " not found"), s)
  | some workflow =>
    match chat_update workflow thread_id message s with
    | (.ok result, s2) =>
      (.ok ⟨"continued", thread_id, workflow_name, some result, Option.none, "Workflow updated successfully"⟩, s2)
    | (.error e, s2) =>
      (.ok ⟨"error", thread_id, workflow_name, Option.none, some e, "Failed to continue workflow"⟩, s2)

/-- `WorkflowOrchestrator.get_state` (`src/agents/orchestrator.py` lines
98-141): unregistered name raises; otherwise the instance read runs inside
`try` — in this model `BaseWorkflowInterface.get_state` is total, so the
`except` arm producing a `status = "error"` envelope is never taken, and the
result is the `not_found` or `found` envelope. -/
def WorkflowOrchestrator.get_state {σ : Type} (workflows : List (String × BaseWorkflowInterface σ))
    (workflow_name thread_id : String) (s : σ) : Except String Envelope :=
  match lookupWorkflow workflows workflow_name with
  | Option.none => .error ("Workflow " ++ workflow_name ++ " not found")
  | some workflow =>
    match workflow.get_state thread_id s with
    | Option.none =>
      .ok ⟨"not_found", thread_id, workflow_name, Option.none, Option.none, "Workflow state not found"⟩
    | some st =>
      .ok ⟨"found", thread_id, workflow_name, some st, Option.none, "State retrieved successfully"⟩

/-- An HTTP-layer outcome of a controller call: a 200 body, or an
`HTTPException` with a status code and a structured detail. -/
inductive HttpDetail where
  | env (e : Envelope)
  | errInfo (status message error : String)

/-- The controller either returns the envelope or raises `HTTPException`. -/
inductive HttpResponse where
  | ok (body : Envelope)
  | httpError (statusCode : Nat) (detail : HttpDetail)

/-- A model of `str(HTTPException(500, detail=result))` (external library
rendering; only used on the re-wrap path below, where its exact text is
immaterial). -/
def httpExcStr (e : Envelope) : String :=
  "500: " ++ e.status ++ " " ++ e.message

/-- `start_workflow` in `src/controllers/workflow_controller.py` lines
40-85: `orchestrator.start` runs inside `try`; a `ValueError` (unknown
workflow) maps to 404 with an `error` detail; a non-`started` envelope makes
the handler raise `HTTPException(500, detail=result)`, which the generic
`except Exception` below the `except ValueError` catches and re-wraps as a
500 `Internal server error` detail. -/
def controller_start_workflow {σ : Type} (workflows : List (String × BaseWorkflowInterface σ))
    (workflow_name : String) (request_data : WorkflowMessage) (thread_id : String) (s : σ) :
    HttpResponse × σ :=
  match WorkflowOrchestrator.start workflows workflow_name request_data thread_id s with
  | (.error e, s2) => (.httpError 404 (.errInfo "error" e "Invalid workflow name"), s2)
  | (.ok env, s2) =>
    if env.status = "started" then (.ok env, s2)
    else (.httpError 500 (.errInfo "error" "Internal server error" (httpExcStr env)), s2)

/-- The content argument of `safe_json_parse`: `None`, `bytes` (carrying
their utf-8 decoding when one exists), `str`, or a value of any other type
(carrying only its truthiness). -/
inductive PyContent where
  | pynone
  | bytes (decoded : Option String)
  | pystr (s : String)
  | other (truthy : Bool)

/-- Python truthiness of the content (`if not content`): `None` and empty
str/bytes are falsy; undecodable bytes are nonempty, hence truthy. -/
def contentTruthy : PyContent → Bool
  | .pynone => false
  | .bytes (some s) => !s.isEmpty
  | .bytes Option.none => true
  | .pystr s => !s.isEmpty
  | .other t => t

/-- Outcome of `json.loads` (external library): a JSON object, some other
JSON value, or a parse error. -/
inductive LoadResult where
  | dict (d : PyDict)
  | nonDict
  | err

/-- The markdown code-fence handling of `safe_json_parse`
(`src/utils/json_parser.py` lines 71-78), with the `re` match modelled by the
abstract `fence` function: when the stripped content starts with three
backticks and the pattern matches, the captured group is stripped and used. -/
def stripFence (fence : String → Option String) (content : String) : String :=
  if content.startsWith "```" then
    match fence content with
    | some inner => inner.trim
    | Option.none => content
  else content

/-- The tail of `safe_json_parse` once the content is a string
(`src/utils/json_parser.py` lines 63-97): strip whitespace, reject the empty
string, unwrap a code fence, parse, and require a dictionary. -/
def parseStr (loads : String → LoadResult) (fence : String → Option String)
    (s : String) (default : PyDict) (raise_on_error : Bool) : Except String PyDict :=
  let s := s.trim
  if s.isEmpty then
    if raise_on_error then .error "Content is empty after stripping whitespace" else .ok default
  else
    match loads (stripFence fence s) with
    | .dict d => .ok d
    | .nonDict => if raise_on_error then .error "Expected dictionary" else .ok default
    | .err => if raise_on_error then .error "Failed to parse JSON content" else .ok default

/-- `safe_json_parse` (`src/utils/json_parser.py` lines 16-97). The
`if default is None: default = {}` line is modelled by the default argument
value; `json.loads` and the code-fence regex are the abstract `loads` and
`fence` parameters. The `.pynone` arm is unreachable (None is falsy) and
mirrors the fall-through to the isinstance check. -/
def safe_json_parse (loads : String → LoadResult) (fence : String → Option String)
    (content : PyContent) (default : PyDict := []) (raise_on_error : Bool := false) :
    Except String PyDict :=
  if !contentTruthy content then
    if raise_on_error then .error "Content is None or empty" else .ok default
  else
    match content with
    | .bytes Option.none =>
      if raise_on_error then .error "Failed to decode bytes content" else .ok default
    | .bytes (some s) => parseStr loads fence s default raise_on_error
    | .pystr s => parseStr loads fence s default raise_on_error
    | .pynone => if raise_on_error then .error "Content must be string or bytes" else .ok default
    | .other _ => if raise_on_error then .error "Content must be string or bytes" else .ok default

/-- An underlying store operation that raises a transient connection error on
the first `fails` attempts and succeeds afterwards. -/
def opFailThen (fails : Nat) : Nat → Except String PyVal :=
  fun i => if i < fails then .error "connection refused" else .ok (.str "ok")

/-- A saver (all defaults, `max_retries = 3`) whose underlying operations
fail transiently exactly 3 times and would succeed on the fourth attempt. -/
def saverFail3 : ResilientPostgresSaver :=
  { super_setup := opFailThen 3, super_list := opFailThen 3,
    super_get_tuple := opFailThen 3, super_put := opFailThen 3 }

/-- A saver (all defaults, `max_retries = 3`) whose underlying operations
fail transiently exactly twice and succeed on the third attempt. -/
def saverFail2 : ResilientPostgresSaver :=
  { super_setup := opFailThen 2, super_list := opFailThen 2,
    super_get_tuple := opFailThen 2, super_put := opFailThen 2 }

/-- The persisted values of a sample completed thread. -/
def completedValues : PyDict :=
  [("thread_id", .str "t1"), ("current_step", .str "done")]

/-- A compiled instance whose thread is completed: the snapshot has no
pending next nodes. -/
def wiCompleted : WfInstance Unit :=
  { get_state := fun _ _ => .ok (some ⟨completedValues, []⟩),
    update_state := fun _ _ s => s,
    invoke := fun _ _ s => (.ok [], s) }

/-- A workflow bound to the completed-thread instance. -/
def wfCompleted : BaseWorkflowInterface Unit := ⟨some wiCompleted⟩

/-- A compiled instance that has no checkpoint for any thread. -/
def wiAbsent : WfInstance Unit :=
  { get_state := fun _ _ => .ok Option.none,
    update_state := fun _ _ s => s,
    invoke := fun _ _ s => (.ok [], s) }

/-- A workflow bound to the no-checkpoint instance. -/
def wfAbsent : BaseWorkflowInterface Unit := ⟨some wiAbsent⟩

/-- A compiled instance whose checkpoint read raises a storage error. -/
def wiRaising : WfInstance Unit :=
  { get_state := fun _ _ => .error "connection lost",
    update_state := fun _ _ s => s,
    invoke := fun _ _ s => (.ok [], s) }

/-- A workflow bound to the raising-read instance. -/
def wfRaising : BaseWorkflowInterface Unit := ⟨some wiRaising⟩

/-- A compiled instance whose graph invocation raises. -/
def wiInvokeFails : WfInstance Unit :=
  { get_state := fun _ _ => .ok Option.none,
    update_state := fun _ _ s => s,
    invoke := fun _ _ s => (.error "node exploded", s) }

/-- A workflow bound to the failing-invocation instance. -/
def wfInvokeFails : BaseWorkflowInterface Unit := ⟨some wiInvokeFails⟩

/-- A sample caller message. -/
def msgA : WorkflowMessage := ⟨"hello", "message", "user"⟩

/-- A second, different caller message. -/
def msgB : WorkflowMessage := ⟨"again", "message", "user"⟩

theorem dictGet_dictSet_self (d : PyDict) (k : String) (v : PyVal) :
    dictGet (dictSet d k v) k = some v := by
  induction d with
  | nil => simp [dictSet, dictGet]
  | cons hd tl ih =>
    obtain ⟨k', v'⟩ := hd
    by_cases h : k' = k
    · subst h
      simp [dictSet, dictGet]
    · simp [dictSet, dictGet, h, ih]

theorem dictGet_dictSet_ne (d : PyDict) (k j : String) (v : PyVal) (h : k ≠ j) :
    dictGet (dictSet d k v) j = dictGet d j := by
  induction d with
  | nil => simp [dictSet, dictGet, h]
  | cons hd tl ih =>
    obtain ⟨k', v'⟩ := hd
    by_cases hk : k' = k
    · subst hk
      simp [dictSet, dictGet, h]
    · simp [dictSet, dictGet, hk, ih]

theorem dictGet_eq_none_of_not_mem_keys (d : PyDict) (k : String) (h : k ∉ dictKeys d) :
    dictGet d k = Option.none := by
  induction d with
  | nil => rfl
  | cons hd tl ih =>
    obtain ⟨k', v'⟩ := hd
    have h1 : k' ≠ k := by
      intro hk
      exact h (by simp [dictKeys, hk])
    have h2 : k ∉ dictKeys tl := by
      intro hk
      exact h (by simp [dictKeys] at hk ⊢; exact Or.inr hk)
    simp [dictGet, h1, ih h2]

theorem existingMessages_congr (a b : PyDict)
    (h : dictGet a "messages" = dictGet b "messages") :
    existingMessages a = existingMessages b := by
  unfold existingMessages
  rw [h]

theorem dictGet_mergeStep_ne (cur merged : PyDict) (key : String) (value : PyVal)
    (k : String) (h : key ≠ k) :
    dictGet (mergeStep cur merged key value) k = dictGet merged k := by
  unfold mergeStep
  split_ifs with h1 h2 h3
  · exact dictGet_dictSet_ne _ _ _ _ (h1.1 ▸ h)
  · have hk : "workflow_data" ≠ k := h2.1 ▸ h
    unfold mergeWorkflowData
    cases hw : dictGet merged "workflow_data" with
    | none => exact dictGet_dictSet_ne _ _ _ _ hk
    | some v' => cases v' <;> exact dictGet_dictSet_ne _ _ _ _ hk
  · rfl
  · exact dictGet_dictSet_ne _ _ _ _ h

theorem dictGet_merge_foldl_ne (cur : PyDict) (l : List (String × PyVal)) (init : PyDict)
    (k : String) (h : ∀ kv ∈ l, kv.1 ≠ k) :
    dictGet (l.foldl (fun merged kv => mergeStep cur merged kv.1 kv.2) init) k = dictGet init k := by
  induction l generalizing init with
  | nil => rfl
  | cons hd tl ih =>
    rw [List.foldl_cons, ih _ (fun kv hm => h kv (List.mem_cons_of_mem _ hm))]
    exact dictGet_mergeStep_ne cur init hd.1 hd.2 k (h hd (List.mem_cons_self _ _))

theorem mergeStep_messages (cur merged : PyDict) (ms : List PyVal) :
    mergeStep cur merged "messages" (.list ms) =
      dictSet merged "messages" (.list (existingMessages merged ++ ms)) := by
  simp [mergeStep, asList]

/-- C2: merging a partial update whose `messages` field is the list `ms`
appends `ms` to the current `messages` (which is treated as empty when
missing or not a list), for any other fields the partial update carries. -/
theorem merge_messages_append (S P : PyDict) (ms : List PyVal)
    (hNodup : (dictKeys P).Nodup)
    (hmem : ("messages", PyVal.list ms) ∈ P) :
    dictGet (merge_partial_state_update S P) "messages" =
      some (.list (existingMessages S ++ ms)) ∧
    (∀ l, dictGet S "messages" = some (.list l) → existingMessages S = l) ∧
    ((∀ l, dictGet S "messages" ≠ some (.list l)) → existingMessages S = []) := by
  refine ⟨?_, ?_, ?_⟩
  · obtain ⟨l1, l2, rfl⟩ := List.append_of_mem hmem
    have hkeys : dictKeys (l1 ++ ("messages", PyVal.list ms) :: l2) =
        dictKeys l1 ++ "messages" :: dictKeys l2 := by
      simp [dictKeys]
    rw [hkeys] at hNodup
    have h1 : ∀ kv ∈ l1, kv.1 ≠ "messages" := by
      intro kv hkv hk
      have : "messages" ∈ dictKeys l1 := by
        simpa [dictKeys, hk] using List.mem_map_of_mem Prod.fst hkv
      exact (List.disjoint_of_nodup_append hNodup) this (List.mem_cons_self _ _)
    have h2 : ∀ kv ∈ l2, kv.1 ≠ "messages" := by
      intro kv hkv hk
      have hnd2 : ("messages" :: dictKeys l2).Nodup := (List.nodup_append.mp hNodup).2.1
      have : "messages" ∈ dictKeys l2 := by
        simpa [dictKeys, hk] using List.mem_map_of_mem Prod.fst hkv
      exact (List.nodup_cons.mp hnd2).1 this
    unfold merge_partial_state_update
    rw [List.foldl_append, List.foldl_cons]
    rw [dictGet_merge_foldl_ne _ _ _ _ h2]
    have hpre : dictGet (l1.foldl (fun merged kv => mergeStep S merged kv.1 kv.2) S) "messages" =
        dictGet S "messages" := dictGet_merge_foldl_ne _ _ _ _ h1
    rw [mergeStep_messages, existingMessages_congr _ _ hpre]
    exact dictGet_dictSet_self _ _ _
  · intro l hl
    unfold existingMessages
    rw [hl]
  · intro hl
    unfold existingMessages
    cases hv : dictGet S "messages" with
    | none => rfl
    | some v =>
      cases v with
      | list l => exact absurd hv (hl l)
      | str s => rfl
      | int n => rfl
      | bool b => rfl
      | none => rfl
      | dict d => rfl
      | msg c t r => rfl
      | obj r => rfl

/-- C2 witness: appending one message to an existing one-message history. -/
theorem merge_messages_append_w :
    dictGet (merge_partial_state_update
        [("messages", PyVal.list [.str "hi"])]
        [("messages", PyVal.list [.str "yo"])]) "messages" =
      some (.list [.str "hi", .str "yo"]) := by
  have h := merge_messages_append [("messages", PyVal.list [.str "hi"])]
      [("messages", PyVal.list [.str "yo"])] [.str "yo"]
      (by simp [dictKeys]) (by simp)
  simpa [existingMessages, dictGet] using h.1

theorem dictGet_mergeStep_immutable (cur merged : PyDict) (key : String) (value : PyVal)
    (k : String) (hk : k = "thread_id" ∨ k = "session_id") (hc : dictContains cur k = true) :
    dictGet (mergeStep cur merged key value) k = dictGet merged k := by
  by_cases hkey : key = k
  · subst hkey
    rcases hk with rfl | rfl <;>
    · unfold mergeStep
      split_ifs with h1 h2 h3
      · exact absurd h1.1 (by decide)
      · exact absurd h2.1 (by decide)
      · rfl
      · exact absurd ⟨by simp, hc⟩ h3
  · exact dictGet_mergeStep_ne cur merged key value k hkey

theorem dictGet_merge_foldl_immutable (cur : PyDict) (l : List (String × PyVal))
    (init : PyDict) (k : String) (hk : k = "thread_id" ∨ k = "session_id")
    (hc : dictContains cur k = true) :
    dictGet (l.foldl (fun merged kv => mergeStep cur merged kv.1 kv.2) init) k = dictGet init k := by
  induction l generalizing init with
  | nil => rfl
  | cons hd tl ih =>
    rw [List.foldl_cons, ih _]
    exact dictGet_mergeStep_immutable cur init hd.1 hd.2 k hk hc

/-- C3: when `thread_id` (resp. `session_id`) is already present in the
current state, every merge leaves it untouched, whatever the partial update
contains for those keys. -/
theorem merge_preserves_immutable_ids (S P : PyDict) :
    (dictContains S "thread_id" = true →
      dictGet (merge_partial_state_update S P) "thread_id" = dictGet S "thread_id") ∧
    (dictContains S "session_id" = true →
      dictGet (merge_partial_state_update S P) "session_id" = dictGet S "session_id") := by
  constructor
  · intro hc
    exact dictGet_merge_foldl_immutable S P S "thread_id" (Or.inl rfl) hc
  · intro hc
    exact dictGet_merge_foldl_immutable S P S "session_id" (Or.inr rfl) hc

/-- C3 witness: a state created with `thread_id = "t1"` keeps it through a
merge whose partial update carries `thread_id = "t2"`. -/
theorem merge_preserves_immutable_ids_w :
    dictGet (merge_partial_state_update
        [("thread_id", PyVal.str "t1")] [("thread_id", PyVal.str "t2")]) "thread_id" =
      some (.str "t1") := by
  have h := (merge_preserves_immutable_ids
      [("thread_id", PyVal.str "t1")] [("thread_id", PyVal.str "t2")]).1 (by rfl)
  rw [h]
  rfl

theorem dictUpdate_cons (cd : PyDict) (k0 : String) (v0 : PyVal) (tl : PyDict) :
    dictUpdate cd ((k0, v0) :: tl) = dictUpdate (dictSet cd k0 v0) tl := by
  simp [dictUpdate]

theorem dictGet_dictUpdate (cd pd : PyDict) (hpd : (dictKeys pd).Nodup) (k : String) :
    dictGet (dictUpdate cd pd) k =
      match dictGet pd k with
      | some v => some v
      | Option.none => dictGet cd k := by
  induction pd generalizing cd with
  | nil => simp [dictUpdate, dictGet]
  | cons hd tl ih =>
    obtain ⟨k0, v0⟩ := hd
    have hnd : k0 ∉ dictKeys tl ∧ (dictKeys tl).Nodup := by
      simpa [dictKeys] using hpd
    rw [dictUpdate_cons, ih (dictSet cd k0 v0) hnd.2]
    by_cases hk : k0 = k
    · subst hk
      rw [dictGet_eq_none_of_not_mem_keys tl k0 hnd.1]
      simp [dictGet, dictGet_dictSet_self]
    · simp [dictGet, hk, dictGet_dictSet_ne _ _ _ _ hk]

theorem mergeStep_workflow_data (cur merged : PyDict) (pd : PyDict) :
    mergeStep cur merged "workflow_data" (.dict pd) = mergeWorkflowData merged pd := by
  simp [mergeStep, asDict]

/-- C8: a partial update carrying a dict `workflow_data` is shallow-merged
onto the current one (the partial update winning key by key — the overlay is
characterized pointwise); a non-dict current value is replaced wholesale; a
missing current value behaves as the empty dict. -/
theorem merge_workflow_data_overlay (S P pd : PyDict)
    (hNodup : (dictKeys P).Nodup) (hNodupPd : (dictKeys pd).Nodup)
    (hmem : ("workflow_data", PyVal.dict pd) ∈ P) :
    (∀ cd, dictGet S "workflow_data" = some (.dict cd) →
      dictGet (merge_partial_state_update S P) "workflow_data" =
        some (.dict (dictUpdate cd pd)) ∧
      ∀ k, dictGet (dictUpdate cd pd) k =
        match dictGet pd k with
        | some v => some v
        | Option.none => dictGet cd k) ∧
    (∀ v, dictGet S "workflow_data" = some v → asDict v = Option.none →
      dictGet (merge_partial_state_update S P) "workflow_data" = some (.dict pd)) ∧
    (dictGet S "workflow_data" = Option.none →
      dictGet (merge_partial_state_update S P) "workflow_data" =
        some (.dict (dictUpdate [] pd))) := by
  obtain ⟨l1, l2, rfl⟩ := List.append_of_mem hmem
  have hkeys : dictKeys (l1 ++ ("workflow_data", PyVal.dict pd) :: l2) =
      dictKeys l1 ++ "workflow_data" :: dictKeys l2 := by
    simp [dictKeys]
  rw [hkeys] at hNodup
  have h1 : ∀ kv ∈ l1, kv.1 ≠ "workflow_data" := by
    intro kv hkv hk
    have : "workflow_data" ∈ dictKeys l1 := by
      simpa [dictKeys, hk] using List.mem_map_of_mem Prod.fst hkv
    exact (List.disjoint_of_nodup_append hNodup) this (List.mem_cons_self _ _)
  have h2 : ∀ kv ∈ l2, kv.1 ≠ "workflow_data" := by
    intro kv hkv hk
    have hnd2 : ("workflow_data" :: dictKeys l2).Nodup := (List.nodup_append.mp hNodup).2.1
    have : "workflow_data" ∈ dictKeys l2 := by
      simpa [dictKeys, hk] using List.mem_map_of_mem Prod.fst hkv
    exact (List.nodup_cons.mp hnd2).1 this
  have hpre : dictGet (l1.foldl (fun merged kv => mergeStep S merged kv.1 kv.2) S) "workflow_data" =
      dictGet S "workflow_data" := dictGet_merge_foldl_ne _ _ _ _ h1
  have hmain : ∀ res : PyDict,
      mergeWorkflowData (l1.foldl (fun merged kv => mergeStep S merged kv.1 kv.2) S) pd =
        dictSet (l1.foldl (fun merged kv => mergeStep S merged kv.1 kv.2) S) "workflow_data" (.dict res) →
      dictGet (merge_partial_state_update S (l1 ++ ("workflow_data", PyVal.dict pd) :: l2)) "workflow_data" =
        some (.dict res) := by
    intro res hres
    unfold merge_partial_state_update
    rw [List.foldl_append, List.foldl_cons]
    rw [dictGet_merge_foldl_ne _ _ _ _ h2]
    show dictGet (mergeStep S (l1.foldl (fun merged kv => mergeStep S merged kv.1 kv.2) S)
        "workflow_data" (.dict pd)) "workflow_data" = some (.dict res)
    rw [mergeStep_workflow_data, hres]
    exact dictGet_dictSet_self _ _ _
  refine ⟨?_, ?_, ?_⟩
  · intro cd hcd
    refine ⟨hmain (dictUpdate cd pd) ?_, fun k => dictGet_dictUpdate cd pd hNodupPd k⟩
    unfold mergeWorkflowData
    rw [hpre, hcd]
  · intro v hv hnd
    refine hmain pd ?_
    unfold mergeWorkflowData
    rw [hpre, hv]
    cases v <;> simp_all [asDict]
  · intro hnone
    refine hmain (dictUpdate [] pd) ?_
    unfold mergeWorkflowData
    rw [hpre, hnone]

/-- C8 witness: the specified overlay example,
`merge({workflow_data:{a:1,b:2}}, {workflow_data:{b:3,c:4}})` yields
`{a:1,b:3,c:4}`. -/
theorem merge_workflow_data_overlay_w :
    dictGet (merge_partial_state_update
        [("workflow_data", PyVal.dict [("a", .int 1), ("b", .int 2)])]
        [("workflow_data", PyVal.dict [("b", .int 3), ("c", .int 4)])]) "workflow_data" =
      some (.dict [("a", .int 1), ("b", .int 3), ("c", .int 4)]) := by
  have h := (merge_workflow_data_overlay
      [("workflow_data", PyVal.dict [("a", .int 1), ("b", .int 2)])]
      [("workflow_data", PyVal.dict [("b", .int 3), ("c", .int 4)])]
      [("b", .int 3), ("c", .int 4)]
      (by simp [dictKeys]) (by simp [dictKeys]) (by simp)).1
      [("a", .int 1), ("b", .int 2)] (by rfl)
  rw [h.1]
  rfl

theorem retryAux_ok_base {α : Type} (op : Nat → Except String α) (r rem : Nat) (a : α)
    (h : op r = .ok a) : retryAux op r (rem + 1) = ⟨some (.ok a), 0⟩ := by
  conv_lhs => unfold retryAux
  rw [h]

theorem retryAux_err_last {α : Type} (op : Nat → Except String α) (r : Nat) (e : String)
    (h : op r = .error e) : retryAux op r 1 = ⟨some (.error e), 0⟩ := by
  conv_lhs => unfold retryAux
  rw [h]

theorem retryAux_err_step {α : Type} (op : Nat → Except String α) (r t : Nat) (e : String)
    (h : op r = .error e) :
    retryAux op r (t + 1 + 1) =
      ⟨(retryAux op (r + 1) (t + 1)).result, (retryAux op (r + 1) (t + 1)).reconnects + 1⟩ := by
  conv_lhs => unfold retryAux
  rw [h]

theorem retryAux_ok {α : Type} (op : Nat → Except String α) (a : α) :
    ∀ (k r m : Nat), k < m → (∀ i, i < k → ∃ e, op (r + i) = .error e) →
      op (r + k) = .ok a → retryAux op r m = ⟨some (.ok a), k⟩ := by
  intro k
  induction k with
  | zero =>
    intro r m hm _ hok
    obtain ⟨m', rfl⟩ := Nat.exists_eq_succ_of_ne_zero (Nat.pos_iff_ne_zero.mp hm)
    rw [Nat.add_zero] at hok
    exact retryAux_ok_base op r m' a hok
  | succ k ih =>
    intro r m hm hfail hok
    obtain ⟨e0, he0⟩ := hfail 0 (Nat.succ_pos k)
    rw [Nat.add_zero] at he0
    obtain ⟨m', rfl⟩ := Nat.exists_eq_succ_of_ne_zero
      (Nat.pos_iff_ne_zero.mp (Nat.lt_of_le_of_lt (Nat.zero_le _) hm))
    have hm' : k + 1 ≤ m' := Nat.lt_succ_iff.mp hm
    obtain ⟨t, rfl⟩ := Nat.exists_eq_succ_of_ne_zero (by omega : m' ≠ 0)
    have hrec : retryAux op (r + 1) (t + 1) = ⟨some (.ok a), k⟩ := by
      refine ih (r + 1) (t + 1) hm' (fun i hi => ?_) ?_
      · obtain ⟨e, he⟩ := hfail (i + 1) (Nat.succ_lt_succ hi)
        exact ⟨e, by rw [← he]; ring_nf⟩
      · rw [← hok]; ring_nf
    rw [retryAux_err_step op r t e0 he0, hrec]

theorem retryAux_exhaust {α : Type} (op : Nat → Except String α) (e : String) :
    ∀ (m r : Nat), 1 ≤ m → (∀ i, i + 1 < m → ∃ x, op (r + i) = .error x) →
      op (r + (m - 1)) = .error e → retryAux op r m = ⟨some (.error e), m - 1⟩ := by
  intro m
  induction m with
  | zero => intro r h; omega
  | succ m' ih =>
    intro r _ hfail hlast
    cases m' with
    | zero =>
      rw [Nat.add_zero] at hlast
      exact retryAux_err_last op r e hlast
    | succ t =>
      obtain ⟨e0, he0⟩ := hfail 0 (by omega)
      rw [Nat.add_zero] at he0
      have hrec : retryAux op (r + 1) (t + 1) = ⟨some (.error e), t + 1 - 1⟩ := by
        refine ih (r + 1) (by omega) (fun i hi => ?_) ?_
        · obtain ⟨x, hx⟩ := hfail (i + 1) (by omega)
          exact ⟨x, by rw [← hx]; ring_nf⟩
        · rw [← hlast]
          have harg : r + 1 + (t + 1 - 1) = r + (t + 1 + 1 - 1) := by omega
          rw [harg]
      rw [retryAux_err_step op r t e0 he0, hrec]
      simp

theorem executeWithRetries_ok {α : Type} (mr : Nat) (op : Nat → Except String α) (k : Nat) (a : α)
    (hk : k < mr) (hfail : ∀ i, i < k → ∃ e, op i = .error e) (hok : op k = .ok a) :
    executeWithRetries mr op = ⟨some (.ok a), k⟩ := by
  refine retryAux_ok op a k 0 mr hk (fun i hi => ?_) (by simpa using hok)
  simpa using hfail i hi

theorem executeWithRetries_exhaust {α : Type} (mr : Nat) (op : Nat → Except String α) (e : String)
    (h1 : 1 ≤ mr) (hfail : ∀ i, i + 1 < mr → ∃ x, op i = .error x)
    (hlast : op (mr - 1) = .error e) :
    executeWithRetries mr op = ⟨some (.error e), mr - 1⟩ := by
  refine retryAux_exhaust op e mr 0 h1 (fun i hi => ?_) (by simpa using hlast)
  simpa using hfail i hi

/-- C1 counterexample: with the default `max_retries = 3`, an underlying
`put` that fails transiently 3 times and would succeed on the next attempt
is NOT retried to success — the wrapped call raises the third failure, so
the claim as stated (N transient failures then success gives wrapped
success) is false on the code. -/
theorem retry_counterexample :
    ResilientPostgresSaver.put saverFail3 = ⟨some (.error "connection refused"), 2⟩ ∧
    saverFail3.super_put 3 = .ok (.str "ok") ∧
    saverFail3.max_retries = 3 := by
  exact ⟨rfl, rfl, rfl⟩

/-- C1 (amended): with `max_retries = N ≥ 1` the wrapper makes at most `N`
total attempts of the underlying operation. For each wrapped store operation
(`put`, `get_tuple`, `list`, `setup`): if the operation fails transiently at
most `N − 1` times (`k < N`) and then succeeds, the wrapped call returns
that success after `k` backoff-and-full-reconnect gaps; if it fails `N`
times, the wrapped call propagates the `N`-th failure to the caller — the
write is not silently dropped — after `N − 1` backoff-and-reconnect gaps. -/
theorem retry_then_fail (s : ResilientPostgresSaver) (N : Nat)
    (hN : s.max_retries = N) (h1 : 1 ≤ N) :
    (∀ k a, k < N → (∀ i, i < k → ∃ e, s.super_put i = .error e) →
      s.super_put k = .ok a → s.put = ⟨some (.ok a), k⟩) ∧
    (∀ e, (∀ i, i + 1 < N → ∃ x, s.super_put i = .error x) →
      s.super_put (N - 1) = .error e → s.put = ⟨some (.error e), N - 1⟩) ∧
    (∀ k a, k < N → (∀ i, i < k → ∃ e, s.super_get_tuple i = .error e) →
      s.super_get_tuple k = .ok a → s.get_tuple = ⟨some (.ok a), k⟩) ∧
    (∀ e, (∀ i, i + 1 < N → ∃ x, s.super_get_tuple i = .error x) →
      s.super_get_tuple (N - 1) = .error e → s.get_tuple = ⟨some (.error e), N - 1⟩) ∧
    (∀ k a, k < N → (∀ i, i < k → ∃ e, s.super_list i = .error e) →
      s.super_list k = .ok a → s.listOp = ⟨some (.ok a), k⟩) ∧
    (∀ e, (∀ i, i + 1 < N → ∃ x, s.super_list i = .error x) →
      s.super_list (N - 1) = .error e → s.listOp = ⟨some (.error e), N - 1⟩) ∧
    (∀ k a, k < N → (∀ i, i < k → ∃ e, s.super_setup i = .error e) →
      s.super_setup k = .ok a → s.setup = ⟨some (.ok a), k⟩) ∧
    (∀ e, (∀ i, i + 1 < N → ∃ x, s.super_setup i = .error x) →
      s.super_setup (N - 1) = .error e → s.setup = ⟨some (.error e), N - 1⟩) := by
  refine ⟨fun k a hk hf ho => ?_, fun e hf hl => ?_, fun k a hk hf ho => ?_,
    fun e hf hl => ?_, fun k a hk hf ho => ?_, fun e hf hl => ?_,
    fun k a hk hf ho => ?_, fun e hf hl => ?_⟩ <;>
    simp only [ResilientPostgresSaver.put, ResilientPostgresSaver.get_tuple,
      ResilientPostgresSaver.listOp, ResilientPostgresSaver.setup, hN]
  · exact executeWithRetries_ok N _ k a hk hf ho
  · exact executeWithRetries_exhaust N _ e h1 hf hl
  · exact executeWithRetries_ok N _ k a hk hf ho
  · exact executeWithRetries_exhaust N _ e h1 hf hl
  · exact executeWithRetries_ok N _ k a hk hf ho
  · exact executeWithRetries_exhaust N _ e h1 hf hl
  · exact executeWithRetries_ok N _ k a hk hf ho
  · exact executeWithRetries_exhaust N _ e h1 hf hl

/-- C1 witness: a saver failing twice then succeeding returns the success
after two reconnect gaps; a saver failing three times propagates the third
failure after two reconnect gaps. -/
theorem retry_then_fail_w :
    ResilientPostgresSaver.put saverFail2 = ⟨some (.ok (.str "ok")), 2⟩ ∧
    ResilientPostgresSaver.put saverFail3 = ⟨some (.error "connection refused"), 2⟩ := by
  constructor
  · exact (retry_then_fail saverFail2 3 rfl (by decide)).1 2 (.str "ok") (by decide)
      (fun i hi => ⟨"connection refused", by simp [saverFail2, opFailThen, hi]⟩) rfl
  · exact (retry_then_fail saverFail3 3 rfl (by decide)).2.1 "connection refused"
      (fun i hi => ⟨"connection refused",
        by have h3 : i < 3 := by omega
           simp [saverFail3, opFailThen, h3]⟩) rfl

theorem serializeMessagesItem_safe (m : PyVal) :
    jsonSafe (serializeMessagesItem m) = true := by
  cases m <;> rfl

theorem serializeMessagesVal_safe (v : PyVal) :
    jsonSafe (serializeMessagesVal v) = true := by
  cases v with
  | list items =>
    show jsonSafeList (items.map serializeMessagesItem) = true
    induction items with
    | nil => rfl
    | cons x xs ih =>
      simp only [List.map_cons]
      show (jsonSafe (serializeMessagesItem x) && jsonSafeList (xs.map serializeMessagesItem)) = true
      rw [serializeMessagesItem_safe, ih]
      rfl
  | str s => rfl
  | int n => rfl
  | bool b => rfl
  | none => rfl
  | dict d => rfl
  | msg c t r => rfl
  | obj r => rfl

theorem serialize_safe_fuel : ∀ n : Nat,
    (∀ kvs : List (String × PyVal), sizeOf kvs ≤ n →
      jsonSafeEntries (serializeEntries kvs) = true) ∧
    (∀ (k : String) (v : PyVal), sizeOf v ≤ n → jsonSafe (serializeValue k v) = true) ∧
    (∀ xs : List PyVal, sizeOf xs ≤ n → jsonSafeList (serializeList xs) = true) := by
  intro n
  induction n using Nat.strong_induction_on with
  | _ n ih =>
    refine ⟨?_, ?_, ?_⟩
    · intro kvs hkvs
      cases kvs with
      | nil => rfl
      | cons hd rest =>
        obtain ⟨k, v⟩ := hd
        have hv : sizeOf v < n := by
          have : sizeOf v < sizeOf ((k, v) :: rest) := by simp <;> omega
          omega
        have hrest : sizeOf rest < n := by
          have : sizeOf rest < sizeOf ((k, v) :: rest) := by simp <;> omega
          omega
        have h1 := (ih (sizeOf v) hv).2.1 k v (Nat.le_refl _)
        have h2 := (ih (sizeOf rest) hrest).1 rest (Nat.le_refl _)
        show (jsonSafe (serializeValue k v) && jsonSafeEntries (serializeEntries rest)) = true
        rw [h1, h2]
        rfl
    · intro k v hv
      by_cases hk : k = "messages"
      · subst hk
        have heq : serializeValue "messages" v = serializeMessagesVal v := by
          unfold serializeValue
          rw [if_pos rfl]
        rw [heq]
        exact serializeMessagesVal_safe v
      · cases v with
        | dict kvs =>
          have hsz : sizeOf kvs < n := by
            have : sizeOf kvs < sizeOf (PyVal.dict kvs) := by simp
            omega
          have h1 := (ih (sizeOf kvs) hsz).1 kvs (Nat.le_refl _)
          have heq : serializeValue k (.dict kvs) = .dict (serializeEntries kvs) := by
            unfold serializeValue
            rw [if_neg hk]
          rw [heq]
          exact h1
        | list items =>
          have hsz : sizeOf items < n := by
            have : sizeOf items < sizeOf (PyVal.list items) := by simp
            omega
          have h1 := (ih (sizeOf items) hsz).2.2 items (Nat.le_refl _)
          have heq : serializeValue k (.list items) = .list (serializeList items) := by
            unfold serializeValue
            rw [if_neg hk]
          rw [heq]
          exact h1
        | str s =>
          unfold serializeValue
          rw [if_neg hk]
          rfl
        | int m =>
          unfold serializeValue
          rw [if_neg hk]
          rfl
        | bool b =>
          unfold serializeValue
          rw [if_neg hk]
          rfl
        | none =>
          unfold serializeValue
          rw [if_neg hk]
          rfl
        | msg c t r =>
          unfold serializeValue
          rw [if_neg hk]
          rfl
        | obj r =>
          unfold serializeValue
          rw [if_neg hk]
          rfl
    · intro xs hxs
      cases xs with
      | nil => rfl
      | cons x rest =>
        have hrest : sizeOf rest < n := by
          have : sizeOf rest < sizeOf (x :: rest) := by simp <;> omega
          omega
        have h2 := (ih (sizeOf rest) hrest).2.2 rest (Nat.le_refl _)
        have hx : jsonSafe (serializeListItem x) = true := by
          cases x with
          | dict kvs =>
            have hsz : sizeOf kvs < n := by
              have h1 : sizeOf kvs < sizeOf (PyVal.dict kvs) := by simp
              have h2 : sizeOf (PyVal.dict kvs) < sizeOf (PyVal.dict kvs :: rest) := by
                simp <;> omega
              have h3 : sizeOf (PyVal.dict kvs :: rest) ≤ n := hxs
              omega
            exact (ih (sizeOf kvs) hsz).1 kvs (Nat.le_refl _)
          | str s => rfl
          | int m => rfl
          | bool b => rfl
          | none => rfl
          | list l => rfl
          | msg c t r => rfl
          | obj r => rfl
        show (jsonSafe (serializeListItem x) && jsonSafeList (serializeList rest)) = true
        rw [hx, h2]
        rfl

theorem serialize_result_safe (v : PyVal) : jsonSafe (serialize_result v) = true := by
  cases v with
  | dict kvs =>
    show jsonSafeEntries (serializeEntries kvs) = true
    exact (serialize_safe_fuel (sizeOf kvs)).1 kvs (Nat.le_refl _)
  | str s => rfl
  | int n => rfl
  | bool b => rfl
  | none => rfl
  | list xs => rfl
  | msg c t r => rfl
  | obj r => rfl

theorem serializeEntries_keys (kvs : List (String × PyVal)) :
    (serializeEntries kvs).map Prod.fst = kvs.map Prod.fst := by
  induction kvs with
  | nil => rfl
  | cons hd rest ih =>
    obtain ⟨k, v⟩ := hd
    have h : serializeEntries ((k, v) :: rest) = (k, serializeValue k v) :: serializeEntries rest := rfl
    rw [h, List.map_cons, List.map_cons, ih]

/-- C6 counterexample: `_serialize_result` does not preserve nested
sequence structure — a list nested directly inside a list is collapsed to
its string representation (`[[]]` becomes `["[]"]`), so the claim as stated
is false at this input. -/
theorem serialize_counterexample :
    serialize_result (.dict [("a", PyVal.list [PyVal.list []])]) =
      .dict [("a", PyVal.list [PyVal.str "[]"])] ∧
    asList (PyVal.str "[]") = Option.none := by
  exact ⟨rfl, rfl⟩

/-- C6 (amended): `_serialize_result` is total and always yields a
JSON-safe value (no message or opaque objects remain anywhere); on a dict
it preserves the keys in order; under the `messages` key a message object
becomes its `{content, type, role}` dict (role defaulting to "unknown");
an unknown object value becomes its string representation; nested mappings
are preserved recursively, but non-dict elements of a nested list
(including nested lists) are stringified. -/
theorem serialize_totality (v : PyVal) (kvs : List (String × PyVal))
    (c t r rep : String) (inner : List PyVal) :
    jsonSafe (serialize_result v) = true ∧
    (∃ kvs', serialize_result (.dict kvs) = .dict kvs' ∧
      kvs'.map Prod.fst = kvs.map Prod.fst) ∧
    serialize_result (.dict [("messages", PyVal.list [.msg c t (some r)])]) =
      .dict [("messages", PyVal.list
        [.dict [("content", .str c), ("type", .str t), ("role", .str r)]])] ∧
    serialize_result (.dict [("messages", PyVal.list [.msg c t Option.none])]) =
      .dict [("messages", PyVal.list
        [.dict [("content", .str c), ("type", .str t), ("role", .str "unknown")]])] ∧
    serialize_result (.dict [("x", PyVal.obj rep)]) = .dict [("x", PyVal.str rep)] ∧
    serialize_result (.dict [("xs", PyVal.list [PyVal.list inner])]) =
      .dict [("xs", PyVal.list [PyVal.str (pyStr (PyVal.list inner))])] := by
  exact ⟨serialize_result_safe v, ⟨serializeEntries kvs, rfl, serializeEntries_keys kvs⟩,
    rfl, rfl, rfl, rfl⟩

/-- C4: when the latest snapshot of a thread has no pending next nodes, a
resume call returns the serialized current state and leaves the store state
untouched (no message appended, nothing invoked), and two resume calls with
different messages return identical results. -/
theorem resume_completed_idempotent {σ : Type} (self : BaseWorkflowInterface σ)
    (wi : WfInstance σ) (thread_id : String) (m1 m2 : Option WorkflowMessage) (s : σ)
    (curr : StateSnapshot)
    (hwi : self.workflow_instance = some wi)
    (hst : wi.get_state thread_id s = .ok (some curr))
    (hdone : curr.next = []) :
    resume_workflow self thread_id m1 s = (.ok (serialize_result (.dict curr.values)), s) ∧
    resume_workflow self thread_id m1 s = resume_workflow self thread_id m2 s := by
  have h : ∀ m, resume_workflow self thread_id m s =
      (.ok (serialize_result (.dict curr.values)), s) := by
    intro m
    unfold resume_workflow
    rw [hwi]
    simp [hst, hdone]
  exact ⟨h m1, (h m1).trans (h m2).symm⟩

/-- C4 witness: resuming a completed thread twice with two different
messages returns the same serialized state both times. -/
theorem resume_completed_idempotent_w :
    resume_workflow wfCompleted "t1" (some msgA) () =
      (.ok (serialize_result (.dict completedValues)), ()) ∧
    resume_workflow wfCompleted "t1" (some msgA) () =
      resume_workflow wfCompleted "t1" (some msgB) () :=
  resume_completed_idempotent wfCompleted wiCompleted "t1" (some msgA) (some msgB) ()
    ⟨completedValues, []⟩ rfl rfl rfl

/-- C5: when no checkpoint exists for a thread, `resume_workflow` fails with
the "No workflow state found for thread_id" error (it does not fabricate a
state), and `chat_update` delegates to `resume_workflow` unchanged. -/
theorem resume_missing_thread_raises {σ : Type} (self : BaseWorkflowInterface σ)
    (wi : WfInstance σ) (thread_id : String) (m : Option WorkflowMessage) (s : σ)
    (hwi : self.workflow_instance = some wi)
    (hst : wi.get_state thread_id s = .ok Option.none) :
    resume_workflow self thread_id m s =
      (.error ("No workflow state found for thread_id: " ++ thread_id), s) ∧
    chat_update self thread_id m s = resume_workflow self thread_id m s := by
  constructor
  · unfold resume_workflow
    rw [hwi]
    simp [hst]
  · rfl

/-- C5 witness: resuming an absent thread produces the not-found error. -/
theorem resume_missing_thread_raises_w :
    resume_workflow wfAbsent "missing" (some msgA) () =
      (.error "No workflow state found for thread_id: missing", ()) := by
  have h := (resume_missing_thread_raises wfAbsent wiAbsent "missing" (some msgA) () rfl rfl).1
  exact h

/-- C7: an unregistered workflow name makes the controller return the 404
response whose detail has status "error" (the orchestrator's `ValueError`
never reaches the caller unhandled); and any failure raised by a registered
start_workflow of a registered workflow is caught by `orchestrator.start` and converted
into the `{status, thread_id, workflow_name, error, message}` error
envelope instead of propagating. -/
theorem orchestrator_error_envelope {σ : Type}
    (workflows : List (String × BaseWorkflowInterface σ))
    (name : String) (msg : WorkflowMessage) (tid : String) (s : σ) :
    (lookupWorkflow workflows name = Option.none →
      controller_start_workflow workflows name msg tid s =
        (.httpError 404 (.errInfo "error" ("Workflow " ++ name ++ " not found")
          "Invalid workflow name"), s)) ∧
    (∀ wf e s2, lookupWorkflow workflows name = some wf →
      start_workflow wf msg tid s = (.error e, s2) →
      WorkflowOrchestrator.start workflows name msg tid s =
        (.ok ⟨"error", tid, name, Option.none, some e, "Failed to start workflow"⟩, s2)) := by
  constructor
  · intro h
    unfold controller_start_workflow WorkflowOrchestrator.start
    simp [h]
  · intro wf e s2 hl hs
    unfold WorkflowOrchestrator.start
    simp [hl, hs]

/-- C7 witness: starting a nonexistent workflow yields the 404 error
response; a registered workflow whose graph invocation raises yields the
orchestrator error envelope. -/
theorem orchestrator_error_envelope_w :
    controller_start_workflow ([] : List (String × BaseWorkflowInterface Unit))
        "nonexistent" msgA "t0" () =
      (.httpError 404 (.errInfo "error" "Workflow nonexistent not found"
        "Invalid workflow name"), ()) ∧
    WorkflowOrchestrator.start [("sample", wfInvokeFails)] "sample" msgA "t0" () =
      (.ok ⟨"error", "t0", "sample", Option.none, some "node exploded",
        "Failed to start workflow"⟩, ()) := by
  constructor
  · exact (orchestrator_error_envelope [] "nonexistent" msgA "t0" ()).1 rfl
  · exact (orchestrator_error_envelope [("sample", wfInvokeFails)] "sample" msgA "t0" ()).2
      wfInvokeFails "node exploded" () rfl rfl

/-- C10: `BaseWorkflowInterface.get_state` never raises — it returns `None`
when the workflow is uninitialized and when the underlying checkpoint read
raises — and at the orchestrator boundary a raising read produces exactly
the `not_found` envelope, identical to the envelope for a genuinely absent
thread, never a `status = "error"` one. -/
theorem get_state_storage_failure_not_found {σ : Type} (wi wiA : WfInstance σ)
    (tid name : String) (s : σ) (e : String)
    (herr : wi.get_state tid s = .error e)
    (habs : wiA.get_state tid s = .ok Option.none) :
    BaseWorkflowInterface.get_state (⟨some wi⟩ : BaseWorkflowInterface σ) tid s = Option.none ∧
    BaseWorkflowInterface.get_state (⟨Option.none⟩ : BaseWorkflowInterface σ) tid s = Option.none ∧
    WorkflowOrchestrator.get_state [(name, (⟨some wi⟩ : BaseWorkflowInterface σ))] name tid s =
      .ok ⟨"not_found", tid, name, Option.none, Option.none, "Workflow state not found"⟩ ∧
    WorkflowOrchestrator.get_state [(name, (⟨some wi⟩ : BaseWorkflowInterface σ))] name tid s =
      WorkflowOrchestrator.get_state [(name, (⟨some wiA⟩ : BaseWorkflowInterface σ))] name tid s := by
  have h1 : BaseWorkflowInterface.get_state (⟨some wi⟩ : BaseWorkflowInterface σ) tid s =
      Option.none := by
    unfold BaseWorkflowInterface.get_state
    simp [herr]
  have h2 : BaseWorkflowInterface.get_state (⟨some wiA⟩ : BaseWorkflowInterface σ) tid s =
      Option.none := by
    unfold BaseWorkflowInterface.get_state
    simp [habs]
  have h3 : WorkflowOrchestrator.get_state [(name, (⟨some wi⟩ : BaseWorkflowInterface σ))]
      name tid s =
      .ok ⟨"not_found", tid, name, Option.none, Option.none, "Workflow state not found"⟩ := by
    unfold WorkflowOrchestrator.get_state lookupWorkflow
    simp [h1]
  have h4 : WorkflowOrchestrator.get_state [(name, (⟨some wiA⟩ : BaseWorkflowInterface σ))]
      name tid s =
      .ok ⟨"not_found", tid, name, Option.none, Option.none, "Workflow state not found"⟩ := by
    unfold WorkflowOrchestrator.get_state lookupWorkflow
    simp [h2]
  exact ⟨h1, rfl, h3, h3.trans h4.symm⟩

/-- C10 witness: a read that raises and a read that reports absence both
surface as the identical `not_found` envelope. -/
theorem get_state_storage_failure_not_found_w :
    BaseWorkflowInterface.get_state wfRaising "x" () = Option.none ∧
    WorkflowOrchestrator.get_state [("sample", wfRaising)] "sample" "x" () =
      .ok ⟨"not_found", "x", "sample", Option.none, Option.none,
        "Workflow state not found"⟩ := by
  have h := get_state_storage_failure_not_found wiRaising wiAbsent "x" "sample" ()
    "connection lost" rfl rfl
  exact ⟨h.1, h.2.2.1⟩

theorem parseStr_empty (loads : String → LoadResult) (fence : String → Option String)
    (s : String) (default : PyDict) (h : s.trim.isEmpty = true) :
    parseStr loads fence s default false = .ok default := by
  unfold parseStr
  simp [h]

theorem parseStr_err (loads : String → LoadResult) (fence : String → Option String)
    (s : String) (default : PyDict) (h : loads (stripFence fence s.trim) = .err) :
    parseStr loads fence s default false = .ok default := by
  unfold parseStr
  by_cases he : s.trim.isEmpty = true
  · simp [he]
  · simp [he, h]

theorem parseStr_nonDict (loads : String → LoadResult) (fence : String → Option String)
    (s : String) (default : PyDict) (h : loads (stripFence fence s.trim) = .nonDict) :
    parseStr loads fence s default false = .ok default := by
  unfold parseStr
  by_cases he : s.trim.isEmpty = true
  · simp [he]
  · simp [he, h]

theorem parseStr_isOk (loads : String → LoadResult) (fence : String → Option String)
    (s : String) (default : PyDict) :
    ∃ d, parseStr loads fence s default false = .ok d := by
  unfold parseStr
  by_cases he : s.trim.isEmpty = true
  · exact ⟨default, by simp [he]⟩
  · cases hl : loads (stripFence fence s.trim) with
    | dict d => exact ⟨d, by simp [he, hl]⟩
    | nonDict => exact ⟨default, by simp [he, hl]⟩
    | err => exact ⟨default, by simp [he, hl]⟩

theorem safe_json_parse_pystr_nonempty (loads : String → LoadResult)
    (fence : String → Option String) (s : String) (default : PyDict)
    (h : s.isEmpty = false) :
    safe_json_parse loads fence (.pystr s) default false =
      parseStr loads fence s default false := by
  unfold safe_json_parse
  simp [contentTruthy, h]

theorem safe_json_parse_bytes_nonempty (loads : String → LoadResult)
    (fence : String → Option String) (s : String) (default : PyDict)
    (h : s.isEmpty = false) :
    safe_json_parse loads fence (.bytes (some s)) default false =
      parseStr loads fence s default false := by
  unfold safe_json_parse
  simp [contentTruthy, h]

theorem safe_json_parse_falsy (loads : String → LoadResult)
    (fence : String → Option String) (content : PyContent) (default : PyDict)
    (h : contentTruthy content = false) :
    safe_json_parse loads fence content default false = .ok default := by
  unfold safe_json_parse
  simp [h]

/-- C9: with `raise_on_error` left at its default `False`, `safe_json_parse`
never raises (it always returns some dictionary), and returns the supplied
default (an empty dict unless another default is given) whenever the
content is falsy (None or empty), of a non-str/bytes type, undecodable
bytes, whitespace-only after stripping, fails to parse, or parses to a JSON
value that is not an object. -/
theorem safe_json_parse_defaults (loads : String → LoadResult)
    (fence : String → Option String) (content : PyContent) (default : PyDict) :
    (∃ d, safe_json_parse loads fence content default false = .ok d) ∧
    (contentTruthy content = false →
      safe_json_parse loads fence content default false = .ok default) ∧
    (∀ t, content = .other t → safe_json_parse loads fence content default false = .ok default) ∧
    (content = .bytes Option.none →
      safe_json_parse loads fence content default false = .ok default) ∧
    (∀ s, content = .pystr s ∨ content = .bytes (some s) →
      (s.trim.isEmpty = true →
        safe_json_parse loads fence content default false = .ok default) ∧
      (loads (stripFence fence s.trim) = .err →
        safe_json_parse loads fence content default false = .ok default) ∧
      (loads (stripFence fence s.trim) = .nonDict →
        safe_json_parse loads fence content default false = .ok default)) := by
  refine ⟨?_, safe_json_parse_falsy loads fence content default, ?_, ?_, ?_⟩
  · cases content with
    | pynone => exact ⟨default, rfl⟩
    | other t => cases t <;> exact ⟨default, rfl⟩
    | pystr s =>
      cases he : s.isEmpty with
      | true =>
        refine ⟨default, safe_json_parse_falsy loads fence _ default ?_⟩
        simp [contentTruthy, he]
      | false =>
        rw [safe_json_parse_pystr_nonempty loads fence s default he]
        exact parseStr_isOk loads fence s default
    | bytes dec =>
      cases dec with
      | none => exact ⟨default, rfl⟩
      | some s =>
        cases he : s.isEmpty with
        | true =>
          refine ⟨default, safe_json_parse_falsy loads fence _ default ?_⟩
          simp [contentTruthy, he]
        | false =>
          rw [safe_json_parse_bytes_nonempty loads fence s default he]
          exact parseStr_isOk loads fence s default
  · intro t ht
    subst ht
    cases t <;> rfl
  · intro h
    subst h
    rfl
  · intro s hs
    have hred : safe_json_parse loads fence content default false = .ok default ∨
        safe_json_parse loads fence content default false =
          parseStr loads fence s default false := by
      rcases hs with rfl | rfl
      · cases he : s.isEmpty with
        | true =>
          refine Or.inl (safe_json_parse_falsy loads fence _ default ?_)
          simp [contentTruthy, he]
        | false => exact Or.inr (safe_json_parse_pystr_nonempty loads fence s default he)
      · cases he : s.isEmpty with
        | true =>
          refine Or.inl (safe_json_parse_falsy loads fence _ default ?_)
          simp [contentTruthy, he]
        | false => exact Or.inr (safe_json_parse_bytes_nonempty loads fence s default he)
    rcases hred with h | h
    · exact ⟨fun _ => h, fun _ => h, fun _ => h⟩
    · rw [h]
      exact ⟨parseStr_empty loads fence s default,
        parseStr_err loads fence s default,
        parseStr_nonDict loads fence s default⟩

/-- C9 witness: unparsable content, content parsing to a non-object, and a
non-string input each yield the default. -/
theorem safe_json_parse_defaults_w :
    safe_json_parse (fun _ => LoadResult.err) (fun _ => Option.none)
      (.pystr "notjson") [] false = .ok [] ∧
    safe_json_parse (fun _ => LoadResult.nonDict) (fun _ => Option.none)
      (.pystr "[1]") [] false = .ok [] ∧
    safe_json_parse (fun _ => LoadResult.err) (fun _ => Option.none)
      (.other true) [] false = .ok [] := by
  refine ⟨?_, ?_, ?_⟩
  · exact ((safe_json_parse_defaults (fun _ => LoadResult.err) (fun _ => Option.none)
      (.pystr "notjson") []).2.2.2.2 "notjson" (Or.inl rfl)).2.1 rfl
  · exact ((safe_json_parse_defaults (fun _ => LoadResult.nonDict) (fun _ => Option.none)
      (.pystr "[1]") []).2.2.2.2 "[1]" (Or.inl rfl)).2.2 rfl
  · exact (safe_json_parse_defaults (fun _ => LoadResult.err) (fun _ => Option.none)
      (.other true) []).2.2.1 true rfl
